import Mathlib

/-!
Verification of the research pipeline's lead-agent planning module
(`src/generation/lead_agent.py`) and of the delivery helpers
(`src/delivery/github_publish.py`, `src/delivery/email.py`,
`src/delivery/slack.py`).

Python strings are modelled as `List Char` (`Str`); Python floats arising
as ratios of small integers are modelled exactly as rationals (`ℚ`), with
`mkRat` standing for Python's true division of integers.  External
network calls (the Anthropic completion call, the OpenAI embedding call,
the GitHub / SMTP / SendGrid / Slack requests) are modelled as explicit
oracles, and the functions additionally return the list of requests they
issued, so that "no request is performed" is expressible as an empty
request log.
-/

deriving instance DecidableEq for Except

namespace Research

/-- Str is the model of a Python `str`: a list of characters. -/
abbrev Str := List Char

/-- lowerStr models Python `str.lower()` (ASCII case mapping). -/
def lowerStr (s : Str) : Str := s.map Char.toLower

/-- isPySpace models membership in Python's default `str.strip()` set. -/
def isPySpace (c : Char) : Bool := c.isWhitespace

/-- stripStr models Python `str.strip()`: drop whitespace at both ends. -/
def stripStr (s : Str) : Str :=
  ((s.dropWhile isPySpace).reverse.dropWhile isPySpace).reverse

/-- splitRunsAux accumulates the current run (reversed) while scanning. -/
def splitRunsAux (p : Char → Bool) : Str → Str → List Str
  | cur, [] => if cur.isEmpty then [] else [cur.reverse]
  | cur, c :: cs =>
      if p c then splitRunsAux p (c :: cur) cs
      else if cur.isEmpty then splitRunsAux p [] cs
      else cur.reverse :: splitRunsAux p [] cs

/-- splitRuns returns the maximal runs of characters satisfying `p`,
in order; it models both `str.split()` (with `p` = not-whitespace) and
`re.findall` of a character-class-plus pattern. -/
def splitRuns (p : Char → Bool) (s : Str) : List Str := splitRunsAux p [] s

/-- isWordChar models Python's regex class `\w` on ASCII text. -/
def isWordChar (c : Char) : Bool := c.isAlphanum || c == '_'

/-- isLowerAlnum models the regex character class `[a-z0-9]`. -/
def isLowerAlnum (c : Char) : Bool :=
  ('a' ≤ c && c ≤ 'z') || ('0' ≤ c && c ≤ '9')

/-- containsSub models Python's `needle in hay` substring test. -/
def containsSub (needle hay : Str) : Bool :=
  hay.tails.any (fun t => needle.isPrefixOf t)

/-- noDoubleDash checks that no two adjacent characters are both `'-'`. -/
def noDoubleDash : Str → Bool
  | [] => true
  | [_] => true
  | a :: b :: rest => !(a == '-' && b == '-') && noDoubleDash (b :: rest)

/-- matchesSlug models `re.fullmatch(r"[a-z0-9]+(?:-[a-z0-9]+)*", s)`:
nonempty, characters drawn from `[a-z0-9-]`, no dash at either end, and
no two consecutive dashes. -/
def matchesSlug (s : Str) : Bool :=
  !s.isEmpty &&
  s.all (fun c => isLowerAlnum c || c == '-') &&
  !(s.head? == some '-') &&
  !(s.getLast? == some '-') &&
  noDoubleDash s

/-- natToCharsAux writes `n` in decimal using structural fuel. -/
def natToCharsAux : Nat → Nat → Str
  | 0, _ => []
  | fuel + 1, n =>
      if n < 10 then [Nat.digitChar n]
      else natToCharsAux fuel (n / 10) ++ [Nat.digitChar (n % 10)]

/-- natToChars models the decimal rendering of a natural number. -/
def natToChars (n : Nat) : Str := natToCharsAux (n + 1) n

/-- intToChars models Python `str(int)`. -/
def intToChars (n : Int) : Str :=
  if n < 0 then '-' :: natToChars n.natAbs else natToChars n.natAbs

/-- padZero left-pads a decimal rendering with `'0'` to a given width,
modelling `strftime`'s zero-padded fields. -/
def padZero (width : Nat) (n : Nat) : Str :=
  let ds := natToChars n
  List.replicate (width - ds.length) '0' ++ ds

/-- Json models the values produced by `json.loads` on a lead-agent
response (numbers restricted to integers, which is all the decomposition
schema uses). -/
inductive Json : Type
  | null : Json
  | bool (b : Bool) : Json
  | num (n : Int) : Json
  | str (s : Str) : Json
  | arr (items : List Json) : Json
  | obj (fields : List (Str × Json)) : Json

/-- jsonLookup models `dict.get` / `dict[...]` on a parsed JSON object's
field list. -/
def jsonLookup (fields : List (Str × Json)) (key : Str) : Option Json :=
  (fields.find? (fun p => p.1 == key)).map Prod.snd

/-- pyStr models Python `str(...)` applied to a decoded JSON value; for
containers only the leading bracket characters matter to any claim (they
can never form a valid slug), so their rendering is abbreviated. -/
def pyStr : Json → Str
  | .null => "None".data
  | .bool true => "True".data
  | .bool false => "False".data
  | .num n => intToChars n
  | .str s => s
  | .arr _ => ['[', ']']
  | .obj _ => ['{', '}']

/-- TaskDescription mirrors the frozen dataclass of the same name in
`lead_agent.py`. -/
structure TaskDescription : Type where
  angle : Str
  angle_slug : Str
  objective : Str
  output_format : Str
  search_guidance : Str
  task_boundaries : Str
deriving DecidableEq, Repr

/-- requiredTaskKeys is `_REQUIRED_TASK_KEYS`, listed in sorted order (the
code sorts the missing keys before reporting them). -/
def requiredTaskKeys : List Str :=
  ["angle".data, "angle_slug".data, "objective".data, "output_format".data,
   "search_guidance".data, "task_boundaries".data]

/-- joinWithCommaSpace models `", ".join(...)`. -/
def joinWithCommaSpace : List Str → Str
  | [] => []
  | [s] => s
  | s :: rest => s ++ [',', ' '] ++ joinWithCommaSpace rest

/-- strField models `str(item[key]).strip()` for a field known present. -/
def strField (fields : List (Str × Json)) (key : Str) : Str :=
  stripStr (pyStr ((jsonLookup fields key).getD .null))

/-- parseTaskItem processes one element of the `task_descriptions` array:
it must be an object, carry all six required keys, and its `angle_slug`,
after `str(...).strip().lower()`, must match the slug pattern. -/
def parseTaskItem (idx : Nat) (item : Json) : Except Str TaskDescription :=
  match item with
  | .obj fields =>
      let missing := requiredTaskKeys.filter
        (fun k => !(fields.any (fun p => p.1 == k)))
      if missing.isEmpty then
        let angle_slug := lowerStr (strField fields "angle_slug".data)
        if matchesSlug angle_slug then
          .ok
            { angle := strField fields "angle".data
              angle_slug := angle_slug
              objective := strField fields "objective".data
              output_format := strField fields "output_format".data
              search_guidance := strField fields "search_guidance".data
              task_boundaries := strField fields "task_boundaries".data }
        else
          .error ("Task description at index ".data ++ natToChars idx ++
            " has invalid angle_slug '".data ++ angle_slug ++ ['\''])
      else
        .error ("Task description at index ".data ++ natToChars idx ++
          " missing required keys: ".data ++ joinWithCommaSpace missing)
  | _ =>
      .error ("Task description at index ".data ++ natToChars idx ++
        " must be an object".data)

/-- parseTaskItems runs `parseTaskItem` along the array, failing on the
first invalid element (the Python loop raises there). -/
def parseTaskItems (idx : Nat) : List Json → Except Str (List TaskDescription)
  | [] => .ok []
  | item :: rest =>
      match parseTaskItem idx item with
      | .error e => .error e
      | .ok t =>
          match parseTaskItems (idx + 1) rest with
          | .error e => .error e
          | .ok ts => .ok (t :: ts)

/-- parseTaskDescriptions is `_parse_task_descriptions`: the payload (the
result of `payload.get("task_descriptions")`, hence an `Option`) must be
an array, and every element must validate. -/
def parseTaskDescriptions : Option Json → Except Str (List TaskDescription)
  | some (.arr items) => parseTaskItems 0 items
  | _ => .error "Lead agent response missing task_descriptions array".data

/-- normalizedSlug extracts from a task object the string the parser
actually validates: `str(item["angle_slug"]).strip().lower()`, when the
key is present. -/
def normalizedSlug : Json → Option Str
  | .obj fields =>
      (jsonLookup fields "angle_slug".data).map (fun v => lowerStr (stripStr (pyStr v)))
  | _ => none

/-- cosineSimilarity is `_cosine_similarity`: despite its name it is the
raw dot product `sum(left * right for left, right in zip(a, b))`, with
`zip` truncating to the shorter list. -/
def cosineSimilarity (a b : List ℚ) : ℚ :=
  ((a.zip b).map (fun p => p.1 * p.2)).sum

/-- tokenOverlap is `_token_overlap_ratio`: the number of distinct
lower-cased `\w+` tokens shared by the two strings, divided by the size
of the smaller token set; `0.0` when either set is empty.  `mkRat` stands
for Python's exact `int / int` division. -/
def tokenOverlap (a b : Str) : ℚ :=
  let aTokens := (splitRuns isWordChar (lowerStr a)).dedup
  let bTokens := (splitRuns isWordChar (lowerStr b)).dedup
  if aTokens.isEmpty || bTokens.isEmpty then 0
  else mkRat (aTokens.filter (fun t => t ∈ bTokens)).length
    (min aTokens.length bTokens.length)

/-- combinedText is the text the duplicate guard compares:
`f"{task.objective}\n{task.task_boundaries}"`. -/
def combinedText (t : TaskDescription) : Str :=
  t.objective ++ '\n' :: t.task_boundaries

/-- overlapThreshold is the literal `0.60` of `_drop_duplicate_tasks`. -/
def overlapThreshold : ℚ := mkRat 60 100

/-- embedThreshold is the literal `0.85` of `_drop_duplicate_tasks`. -/
def embedThreshold : ℚ := mkRat 85 100

/-- dropAux is the greedy duplicate-suppression loop of
`_drop_duplicate_tasks` with its mutable `kept_indices` made explicit:
each item is compared against every already-kept item (`sim current
kept`), and appended to the kept list only if no similarity exceeds the
threshold.  The function returns the kept list, which the Python code
reconstructs as `[tasks[idx] for idx in kept_indices]`. -/
def dropAux {β : Type} (sim : β → β → ℚ) (thr : ℚ) (kept : List β) :
    List β → List β
  | [] => kept
  | b :: rest =>
      if kept.any (fun k => decide (thr < sim b k)) then
        dropAux sim thr kept rest
      else
        dropAux sim thr (kept ++ [b]) rest

/-- taskTokenSim is the similarity used in the token-overlap fallback
branch: `_token_overlap_ratio(combined_texts[idx], combined_texts[kept_idx])`. -/
def taskTokenSim (a b : TaskDescription) : ℚ :=
  tokenOverlap (combinedText a) (combinedText b)

/-- pairEmbedSim is the similarity used in the embedding branch:
`_cosine_similarity(vectors[idx], vectors[kept_idx])`, on tasks paired
with their embedding vectors. -/
def pairEmbedSim (a b : TaskDescription × List ℚ) : ℚ :=
  cosineSimilarity a.2 b.2

/-- dropDuplicateTasks is `_drop_duplicate_tasks`.  The embedding call
(`client.embeddings.create`) is an external request wrapped in
`try/except`; its net effect is the `vectors` optional: `some vs` when
the call returned vectors, `none` when it raised and the code fell back
to token overlap.  The Python code re-tests `vectors and len(vectors) ==
len(tasks)` inside the loop; the condition is loop-invariant, so it is
hoisted here. -/
def dropDuplicateTasks (tasks : List TaskDescription)
    (vectors : Option (List (List ℚ))) : List TaskDescription :=
  if tasks.length < 2 then tasks
  else
    match vectors with
    | some vs =>
        if !vs.isEmpty && vs.length == tasks.length then
          (dropAux pairEmbedSim embedThreshold [] (tasks.zip vs)).map Prod.fst
        else
          dropAux taskTokenSim overlapThreshold [] tasks
    | none => dropAux taskTokenSim overlapThreshold [] tasks

/-- markerWords are the multi-part connective markers of
`_heuristic_complexity`. -/
def markerWords : List Str := [" and ".data, " vs ".data, " across ".data]

/-- heuristicComplexity is `_heuristic_complexity`: "complex" for ≥ 10
words or a connective marker in the lower-cased topic, else "simple" for
≤ 4 words, else "moderate". -/
def heuristicComplexity (topic : Str) : Str :=
  let words := splitRuns (fun c => !(isPySpace c)) topic
  let lowered := lowerStr topic
  if 10 ≤ words.length || markerWords.any (fun m => containsSub m lowered) then
    "complex".data
  else if words.length ≤ 4 then "simple".data
  else "moderate".data

/-- leadAgentSystemText is `LEAD_AGENT_SYSTEM` from `prompts.py`. -/
def leadAgentSystemText : Str :=
  ("You are the lead research orchestrator. Your job is to break a topic into non-overlapping " ++
   "subagent tasks with clear boundaries so work is parallelisable and non-duplicative.").data

/-- leadAgentUserText is `LEAD_AGENT_USER_TEMPLATE.format(topic=...,
complexity_hint=...)` from `prompts.py`. -/
def leadAgentUserText (topic complexity_hint : Str) : Str :=
  "Topic:\n".data ++ topic ++
  "\n\nComplexity hint (heuristic only; you may override): ".data ++ complexity_hint ++
  ("\n\nCanonical angles (choose the subset needed):\n" ++
   "1. Latest developments and announcements\n" ++
   "2. Technical methods and implementation details\n" ++
   "3. Limitations, risks, and failure modes\n" ++
   "4. Business, product, and ecosystem implications\n" ++
   "5. Quantitative benchmarks and key statistics\n" ++
   "6. Open questions and unresolved debates\n" ++
   "7. Background and prior work\n\n" ++
   "Scaling rules:\n" ++
   "- simple topics: 1 subagent\n" ++
   "- moderate topics: 2-4 subagents\n" ++
   "- complex topics: 5-7 subagents\n\n" ++
   "Assess actual complexity yourself and explain your decomposition reasoning.\n" ++
   "Return STRICT JSON with keys: `complexity` (simple|moderate|complex), `reasoning` (string), " ++
   "`task_descriptions` (array).\n" ++
   "Each item in `task_descriptions` must include exactly: `angle`, `angle_slug`, `objective`, " ++
   "`output_format`, `search_guidance` (initial broad query + suggested narrowing directions), " ++
   "and `task_boundaries` (explicitly out-of-scope work).").data

/-- buildLeadAgentPrompt is `build_lead_agent_prompt`: the pair of system
text and formatted user text. -/
def buildLeadAgentPrompt (topic complexity_hint : Str) : Str × Str :=
  (leadAgentSystemText, leadAgentUserText topic complexity_hint)

/-- LeadAgentResult mirrors the frozen dataclass of the same name. -/
structure LeadAgentResult : Type where
  topic : Str
  task_descriptions : List TaskDescription
  subagent_count : Nat
  complexity : Str
  complexity_hint : Str
  planning_reasoning : Str
deriving DecidableEq, Repr

/-- processPayload is the body of one `run_lead_agent` loop iteration
after the completion call: the decoded JSON payload must be an object,
`complexity` and `reasoning` are read (a missing key raises `KeyError`),
the task array is parsed and deduplicated, and the result is assembled.
The `vectors` argument is the outcome of the duplicate guard's embedding
call for this attempt. -/
def processPayload (topic complexity_hint : Str) (payload : Json)
    (vectors : Option (List (List ℚ))) : Except Str LeadAgentResult :=
  match payload with
  | .obj fields =>
      match jsonLookup fields "complexity".data with
      | none => .error "KeyError: complexity".data
      | some c =>
          match jsonLookup fields "reasoning".data with
          | none => .error "KeyError: reasoning".data
          | some rs =>
              match parseTaskDescriptions (jsonLookup fields "task_descriptions".data) with
              | .error e => .error e
              | .ok tasks0 =>
                  let tasks := dropDuplicateTasks tasks0 vectors
                  .ok { topic := topic
                        task_descriptions := tasks
                        subagent_count := tasks.length
                        complexity := lowerStr (stripStr (pyStr c))
                        complexity_hint := complexity_hint
                        planning_reasoning := stripStr (pyStr rs) }
  | _ => .error "Lead agent response must be a JSON object".data

/-- attemptOnce performs one request attempt: the completion call plus
JSON decoding is the oracle `respond` (an exception or undecodable text
is its `error` case), and the rest is `processPayload`. -/
def attemptOnce (topic complexity_hint : Str) (prompt : Str × Str)
    (respond : Str × Str → Nat → Except Str Json)
    (embed : Nat → Option (List (List ℚ))) (attempt : Nat) :
    Except Str LeadAgentResult :=
  match respond prompt attempt with
  | .error e => .error e
  | .ok payload => processPayload topic complexity_hint payload (embed attempt)

/-- retryMessage is the fatal error raised after the retry also fails. -/
def retryMessage (e : Str) : Str :=
  "Lead agent response was unparseable after retry: ".data ++ e

/-- runLeadAgent is `run_lead_agent`: the complexity hint and prompt are
computed once, then `for attempt in range(2)` tries at most twice with
the same prompt, returning the first success and otherwise raising the
fatal error built from the last failure.  The second component is the
log of completion requests issued (prompt and attempt index). -/
def runLeadAgent (topic : Str) (respond : Str × Str → Nat → Except Str Json)
    (embed : Nat → Option (List (List ℚ))) :
    Except Str LeadAgentResult × List ((Str × Str) × Nat) :=
  let hint := heuristicComplexity topic
  let prompt := buildLeadAgentPrompt topic hint
  match attemptOnce topic hint prompt respond embed 0 with
  | .ok r => (.ok r, [(prompt, 0)])
  | .error _ =>
      match attemptOnce topic hint prompt respond embed 1 with
      | .ok r => (.ok r, [(prompt, 0), (prompt, 1)])
      | .error e1 => (.error (retryMessage e1), [(prompt, 0), (prompt, 1)])

/-- Datetime models the date part of a `datetime.datetime` value. -/
structure Datetime : Type where
  year : Nat
  month : Nat
  day : Nat
deriving DecidableEq, Repr

/-- strftimeDay models `report_created_at.strftime("%Y-%m-%d")`. -/
def strftimeDay (d : Datetime) : Str :=
  padZero 4 d.year ++ '-' :: padZero 2 d.month ++ '-' :: padZero 2 d.day

/-- slugifySub models `re.sub(r"[^a-z0-9]+", "-", value)`: each maximal
run of non-`[a-z0-9]` characters is replaced by a single dash; the flag
records whether the scan is inside such a run. -/
def slugifySub (prevDash : Bool) : Str → Str
  | [] => []
  | c :: cs =>
      if isLowerAlnum c then c :: slugifySub false cs
      else if prevDash then slugifySub true cs
      else '-' :: slugifySub true cs

/-- stripDashes models `str.strip("-")`. -/
def stripDashes (s : Str) : Str :=
  ((s.dropWhile (fun c => c == '-')).reverse.dropWhile (fun c => c == '-')).reverse

/-- slugify is `_slugify`: substitute non-alphanumeric runs in the
lower-cased value with dashes, strip boundary dashes, and fall back to
"report" when nothing remains. -/
def slugify (value : Str) : Str :=
  let slug := stripDashes (slugifySub false (lowerStr value))
  if slug.isEmpty then "report".data else slug

/-- buildReportPath is `build_report_path`:
`f"reports/{day}-{slug}.md"`. -/
def buildReportPath (report_title : Str) (report_created_at : Datetime) : Str :=
  "reports/".data ++ strftimeDay report_created_at ++ '-' :: slugify report_title ++ ".md".data

/-- GithubPublishResult mirrors the dataclass of the same name. -/
structure GithubPublishResult : Type where
  path : Str
  html_url : Str
  committed : Bool
  sha : Option Str := none
deriving DecidableEq, Repr

/-- GithubRequest records one `_github_api_request` invocation; the PUT
content field carries the markdown whose base64 encoding the real code
sends (the encoding is an invertible boundary detail). -/
inductive GithubRequest : Type
  | get (owner repo path branch : Str)
  | put (owner repo path branch : Str) (message content : Str) (sha : Option Str)
deriving DecidableEq

/-- githubHtmlUrl is the `html_url` f-string of
`publish_report_markdown`. -/
def githubHtmlUrl (owner repo branch path : Str) : Str :=
  "https://github.com/".data ++ owner ++ '/' :: repo ++ "/blob/".data ++
    branch ++ '/' :: path

/-- publishReportMarkdown is `publish_report_markdown`.  The two network
calls are oracles: `getResp` is the GET of the existing file (`error`
carries an HTTP status code and message), `putResp` the PUT response.
The second result component logs the requests issued. -/
def publishReportMarkdown (report_markdown report_title : Str)
    (report_created_at : Datetime)
    (github_owner github_repo github_branch : Str) (dry_run : Bool)
    (getResp : Except (Nat × Str) Json) (putResp : Json) :
    Except Str (GithubPublishResult × List GithubRequest) :=
  let path := buildReportPath report_title report_created_at
  let html_url := githubHtmlUrl github_owner github_repo github_branch path
  if dry_run then
    .ok ({ path := path, html_url := html_url, committed := false }, [])
  else
    let getReq := GithubRequest.get github_owner github_repo path github_branch
    let proceed : Option Str → Except Str (GithubPublishResult × List GithubRequest) :=
      fun existingSha =>
        let message := "Publish report: ".data ++ report_title
        let putReq := GithubRequest.put github_owner github_repo path github_branch
          message report_markdown existingSha
        let committedSha : Option Str :=
          match putResp with
          | .obj fs =>
              match jsonLookup fs "commit".data with
              | some (.obj cfs) => (jsonLookup cfs "sha".data).map pyStr
              | _ => none
          | _ => none
        .ok ({ path := path, html_url := html_url, committed := true,
               sha := committedSha }, [getReq, putReq])
    match getResp with
    | .error (code, msg) =>
        if code != 404 then .error msg else proceed none
    | .ok j =>
        match j with
        | .obj fs => proceed ((jsonLookup fs "sha".data).map pyStr)
        | _ => proceed none

/-- getenvD models `os.getenv(name, default)`. -/
def getenvD (env : Str → Option Str) (name dflt : Str) : Str :=
  (env name).getD dflt

/-- splitOnCharAux splits at every occurrence of `sep`, keeping empty
pieces, like Python's `str.split(",")`. -/
def splitOnCharAux (sep : Char) : Str → Str → List Str
  | cur, [] => [cur.reverse]
  | cur, c :: cs =>
      if c == sep then cur.reverse :: splitOnCharAux sep [] cs
      else splitOnCharAux sep (c :: cur) cs

/-- splitOnChar models Python `str.split(sep)` for a one-character
separator. -/
def splitOnChar (sep : Char) (s : Str) : List Str := splitOnCharAux sep [] s

/-- EmailMessage models the `EmailMessage` assembled by
`_build_email_message` (headers, body, markdown attachment). -/
structure EmailMessage : Type where
  subject : Str
  from_email : Str
  to_line : Str
  body_text : Str
  attachment : Str
deriving DecidableEq

/-- buildEmailMessage is `_build_email_message`. -/
def buildEmailMessage (subject body_text from_email : Str)
    (to_emails : List Str) (report_markdown : Str) : EmailMessage :=
  { subject := subject
    from_email := from_email
    to_line := joinWithCommaSpace to_emails
    body_text := body_text
    attachment := report_markdown }

/-- EmailDeliveryResult mirrors the dataclass of the same name. -/
structure EmailDeliveryResult : Type where
  provider : Str
  delivered : Bool
deriving DecidableEq, Repr

/-- EmailSendEvent records one outbound email transmission (SMTP session
or SendGrid API POST). -/
inductive EmailSendEvent : Type
  | smtp (host : Str) (message : EmailMessage)
  | sendgrid (to_emails : List Str) (subject body_text from_email attachment : Str)
deriving DecidableEq

/-- sendSummaryEmail is `send_summary_email`.  Environment lookup is the
`env` function; the actual SMTP session and SendGrid POST are oracles
(`smtpResult`, `sendgridResult`); SMTP port/login/TLS negotiation inside
an established session is below the modelled boundary.  The second
result component logs the transmissions performed. -/
def sendSummaryEmail (report_title summary report_url report_markdown : Str)
    (env : Str → Option Str) (dry_run : Bool)
    (smtpResult : Except Str Unit) (sendgridResult : Except Str Unit) :
    Except Str (EmailDeliveryResult × List EmailSendEvent) :=
  let provider := lowerStr (stripStr (getenvD env "DELIVERY_EMAIL_PROVIDER".data "smtp".data))
  let from_email := getenvD env "DELIVERY_EMAIL_FROM".data []
  let recipients_raw := getenvD env "DELIVERY_EMAIL_TO".data []
  let to_emails := ((splitOnChar ',' recipients_raw).map stripStr).filter
    (fun a => !a.isEmpty)
  if from_email.isEmpty || to_emails.isEmpty then
    .error "DELIVERY_EMAIL_FROM and DELIVERY_EMAIL_TO must be configured for email delivery".data
  else
    let subject := "Research report: ".data ++ report_title
    let body_text := summary ++ "\n\nReport URL: ".data ++ report_url ++ ['\n']
    let message := buildEmailMessage subject body_text from_email to_emails report_markdown
    if dry_run then
      .ok ({ provider := provider, delivered := false }, [])
    else if provider == "smtp".data then
      let host := getenvD env "SMTP_HOST".data []
      if host.isEmpty then
        .error "SMTP_HOST must be configured when DELIVERY_EMAIL_PROVIDER=smtp".data
      else
        match smtpResult with
        | .error e => .error e
        | .ok _ => .ok ({ provider := provider, delivered := true },
            [.smtp host message])
    else if provider == "sendgrid".data then
      let api_key := getenvD env "SENDGRID_API_KEY".data []
      if api_key.isEmpty then
        .error "SENDGRID_API_KEY must be configured when DELIVERY_EMAIL_PROVIDER=sendgrid".data
      else
        match sendgridResult with
        | .error e => .error e
        | .ok _ => .ok ({ provider := provider, delivered := true },
            [.sendgrid to_emails subject body_text from_email report_markdown])
    else
      .error ("Unsupported DELIVERY_EMAIL_PROVIDER: ".data ++ provider)

/-- SlackDeliveryResult mirrors the dataclass of the same name. -/
structure SlackDeliveryResult : Type where
  delivered : Bool
deriving DecidableEq, Repr

/-- SlackRequest records one webhook POST. -/
inductive SlackRequest : Type
  | post (webhook_url text : Str)
deriving DecidableEq

/-- postReportSummary is `post_report_summary`; the webhook POST is the
oracle `postResult`, and the second result component logs the POSTs
performed. -/
def postReportSummary (summary report_url : Str) (env : Str → Option Str)
    (dry_run : Bool) (postResult : Except Str Unit) :
    Except Str (SlackDeliveryResult × List SlackRequest) :=
  let webhook_url := getenvD env "SLACK_WEBHOOK_URL".data []
  if webhook_url.isEmpty then
    .error "SLACK_WEBHOOK_URL must be configured for Slack delivery".data
  else if dry_run then
    .ok ({ delivered := false }, [])
  else
    match postResult with
    | .error e => .error e
    | .ok _ => .ok ({ delivered := true },
        [.post webhook_url (summary ++ '\n' :: report_url)])

/-!  Concrete sample data used by counterexamples and witnesses. -/

/-- dupTaskA is a sample task whose duplicate-guard text is "alpha". -/
def dupTaskA : TaskDescription :=
  { angle := "angle one".data, angle_slug := "t1".data, objective := "alpha".data,
    output_format := "fmt".data, search_guidance := "sg".data, task_boundaries := [] }

/-- dupTaskB is a sample task whose duplicate-guard text is "alpha\nbeta". -/
def dupTaskB : TaskDescription :=
  { angle := "angle two".data, angle_slug := "t2".data, objective := "alpha".data,
    output_format := "fmt".data, search_guidance := "sg".data, task_boundaries := "beta".data }

/-- dupTaskC is a sample task whose duplicate-guard text is "beta". -/
def dupTaskC : TaskDescription :=
  { angle := "angle three".data, angle_slug := "t3".data, objective := "beta".data,
    output_format := "fmt".data, search_guidance := "sg".data, task_boundaries := [] }

/-- sampleItem is a well-formed decomposition task object whose
`angle_slug` is `"t1"`. -/
def sampleItem : Json :=
  .obj [("angle".data, .str "Angle".data), ("angle_slug".data, .str "t1".data),
        ("objective".data, .str "obj".data), ("output_format".data, .str "fmt".data),
        ("search_guidance".data, .str "sg".data), ("task_boundaries".data, .str "tb".data)]

/-- sampleParsedTask is the TaskDescription `sampleItem` parses to. -/
def sampleParsedTask : TaskDescription :=
  { angle := "Angle".data, angle_slug := "t1".data, objective := "obj".data,
    output_format := "fmt".data, search_guidance := "sg".data, task_boundaries := "tb".data }

/-- upperSlugItem is a decomposition task object carrying all six keys
whose raw `angle_slug` `"ABC"` fails the slug pattern while its
lower-cased form `"abc"` passes. -/
def upperSlugItem : Json :=
  .obj [("angle".data, .str "Angle".data), ("angle_slug".data, .str "ABC".data),
        ("objective".data, .str "obj".data), ("output_format".data, .str "fmt".data),
        ("search_guidance".data, .str "sg".data), ("task_boundaries".data, .str "tb".data)]

/-- upperSlugParsedTask is the TaskDescription `upperSlugItem` parses to. -/
def upperSlugParsedTask : TaskDescription :=
  { angle := "Angle".data, angle_slug := "abc".data, objective := "obj".data,
    output_format := "fmt".data, search_guidance := "sg".data, task_boundaries := "tb".data }

/-- badSlugItem is a decomposition task object carrying all six keys
whose `angle_slug`, even after strip and lower-casing, fails the slug
pattern (it contains a space). -/
def badSlugItem : Json :=
  .obj [("angle".data, .str "Angle".data), ("angle_slug".data, .str "Bad Slug".data),
        ("objective".data, .str "obj".data), ("output_format".data, .str "fmt".data),
        ("search_guidance".data, .str "sg".data), ("task_boundaries".data, .str "tb".data)]

/-- samplePayload is a complete well-formed decomposition payload with a
single task. -/
def samplePayload : Json :=
  .obj [("complexity".data, .str "simple".data), ("reasoning".data, .str "ok".data),
        ("task_descriptions".data, .arr [sampleItem])]

/-- sampleLeadResult is the LeadAgentResult produced from
`samplePayload` for topic "t". -/
def sampleLeadResult : LeadAgentResult :=
  { topic := "t".data, task_descriptions := [sampleParsedTask], subagent_count := 1,
    complexity := "simple".data, complexity_hint := "simple".data,
    planning_reasoning := "ok".data }

/-- respondOk is a completion oracle that always returns
`samplePayload`. -/
def respondOk : Str × Str → Nat → Except Str Json := fun _ _ => .ok samplePayload

/-- respondBad is a completion oracle whose output never decodes. -/
def respondBad : Str × Str → Nat → Except Str Json := fun _ _ => .error "bad json".data

/-- embedNone is an embedding oracle whose call always raises. -/
def embedNone : Nat → Option (List (List ℚ)) := fun _ => none

/-- respondRetry is a completion oracle whose first attempt fails to
decode and whose retry returns `samplePayload`. -/
def respondRetry : Str × Str → Nat → Except Str Json :=
  fun _ n => if n = 0 then .error "bad json".data else .ok samplePayload

/-- orthoVecs is a pair of orthogonal unit embedding vectors. -/
def orthoVecs : List (List ℚ) := [[1, 0], [0, 1]]

/-- sampleEnv is a delivery environment with just the email sender and
recipient configured. -/
def sampleEnv : Str → Option Str := fun name =>
  if name = "DELIVERY_EMAIL_FROM".data then some "bot@example.com".data
  else if name = "DELIVERY_EMAIL_TO".data then some "dev@example.com".data
  else if name = "SLACK_WEBHOOK_URL".data then some "https://hooks.example.com/x".data
  else none

/-- emptyEnv is a delivery environment with nothing configured. -/
def emptyEnv : Str → Option Str := fun _ => none

/-!  Generic lemmas about the greedy duplicate-suppression loop. -/

/-- dropAux_extends: the loop only ever appends to the kept list. -/
lemma dropAux_extends {β : Type} (sim : β → β → ℚ) (thr : ℚ) (l : List β) :
    ∀ kept, ∃ t, dropAux sim thr kept l = kept ++ t := by
  induction l with
  | nil => intro kept; exact ⟨[], by simp [dropAux]⟩
  | cons b rest ih =>
      intro kept
      by_cases hc : (kept.any (fun k => decide (thr < sim b k))) = true
      · obtain ⟨t, ht⟩ := ih kept
        exact ⟨t, by simp [dropAux, hc, ht]⟩
      · obtain ⟨t, ht⟩ := ih (kept ++ [b])
        exact ⟨b :: t, by simp [dropAux, hc, ht]⟩

/-- dropAux_pairwise: if no kept item exceeds the threshold against any
earlier kept item, the same holds after processing the whole list. -/
lemma dropAux_pairwise {β : Type} (sim : β → β → ℚ) (thr : ℚ) (l : List β) :
    ∀ kept, kept.Pairwise (fun a b => ¬ thr < sim b a) →
      (dropAux sim thr kept l).Pairwise (fun a b => ¬ thr < sim b a) := by
  induction l with
  | nil => intro kept h; simpa [dropAux] using h
  | cons b rest ih =>
      intro kept h
      by_cases hc : (kept.any (fun k => decide (thr < sim b k))) = true
      · simpa [dropAux, hc] using ih kept h
      · have hnot : ∀ k ∈ kept, ¬ thr < sim b k := by
          simpa [List.any_eq_true] using hc
        have h' : (kept ++ [b]).Pairwise (fun a b => ¬ thr < sim b a) := by
          rw [List.pairwise_append]
          exact ⟨h, List.pairwise_singleton _ _, by
            intro a ha c hc'
            simp only [List.mem_singleton] at hc'
            subst hc'
            exact hnot a ha⟩
        simpa [dropAux, hc] using ih (kept ++ [b]) h'

/-- dropAux_sublist: the kept list is an order-preserving selection from
the kept prefix together with the remaining input. -/
lemma dropAux_sublist {β : Type} (sim : β → β → ℚ) (thr : ℚ) (l : List β) :
    ∀ kept, (dropAux sim thr kept l).Sublist (kept ++ l) := by
  induction l with
  | nil => intro kept; simp [dropAux]
  | cons b rest ih =>
      intro kept
      by_cases hc : (kept.any (fun k => decide (thr < sim b k))) = true
      · have h1 := ih kept
        have h2 : (kept ++ rest).Sublist (kept ++ b :: rest) :=
          List.Sublist.append_left (List.sublist_cons_self b rest) kept
        simpa [dropAux, hc] using h1.trans h2
      · have h1 := ih (kept ++ [b])
        have h2 : ((kept ++ [b]) ++ rest) = kept ++ b :: rest := by simp
        rw [h2] at h1
        simpa [dropAux, hc] using h1

/-- dropAux_dropped: an input item missing from the kept output exceeded
the threshold against some item that was kept. -/
lemma dropAux_dropped {β : Type} (sim : β → β → ℚ) (thr : ℚ) (l : List β) :
    ∀ kept x, x ∈ kept ++ l → x ∉ dropAux sim thr kept l →
      ∃ k ∈ dropAux sim thr kept l, thr < sim x k := by
  induction l with
  | nil =>
      intro kept x hx hnx
      exact absurd (by simpa [dropAux] using hx) (by simpa [dropAux] using hnx)
  | cons b rest ih =>
      intro kept x hx hnx
      by_cases hc : (kept.any (fun k => decide (thr < sim b k))) = true
      · rw [show dropAux sim thr kept (b :: rest) = dropAux sim thr kept rest from by
            simp [dropAux, hc]] at hnx ⊢
        rcases (by simpa using hx : x ∈ kept ∨ x = b ∨ x ∈ rest) with h | h | h
        · exact ih kept x (by simp [h]) hnx
        · subst h
          obtain ⟨k, hk, hsim⟩ := by simpa [List.any_eq_true] using hc
          obtain ⟨t, ht⟩ := dropAux_extends sim thr rest kept
          exact ⟨k, by simp [ht, hk], hsim⟩
        · exact ih kept x (by simp [h]) hnx
      · rw [show dropAux sim thr kept (b :: rest) = dropAux sim thr (kept ++ [b]) rest from by
            simp [dropAux, hc]] at hnx ⊢
        have hx' : x ∈ (kept ++ [b]) ++ rest := by
          rcases (by simpa using hx : x ∈ kept ∨ x = b ∨ x ∈ rest) with h | h | h
          · simp [h]
          · simp [h]
          · simp [h]
        exact ih (kept ++ [b]) x hx' hnx

/-- dropAux_of_pairwise: on an input already free of above-threshold
pairs, the loop keeps everything. -/
lemma dropAux_of_pairwise {β : Type} (sim : β → β → ℚ) (thr : ℚ) (l : List β) :
    ∀ kept, (kept ++ l).Pairwise (fun a b => ¬ thr < sim b a) →
      dropAux sim thr kept l = kept ++ l := by
  induction l with
  | nil => intro kept _; simp [dropAux]
  | cons b rest ih =>
      intro kept h
      rw [List.pairwise_append] at h
      obtain ⟨hk, hbr, hcross⟩ := h
      have hnot : (kept.any (fun k => decide (thr < sim b k))) = false := by
        simp only [List.any_eq_false, decide_eq_true_eq]
        intro k hk'
        exact hcross k hk' b (by simp)
      have h' : ((kept ++ [b]) ++ rest).Pairwise (fun a b => ¬ thr < sim b a) := by
        have : (kept ++ [b]) ++ rest = kept ++ b :: rest := by simp
        rw [this, List.pairwise_append]
        exact ⟨hk, hbr, hcross⟩
      have := ih (kept ++ [b]) h'
      simp only [dropAux, hnot, Bool.false_eq_true, if_false]
      rw [this]
      simp

/-- cosineSimilarity_comm: the dot product is symmetric. -/
lemma cosineSimilarity_comm (a b : List ℚ) :
    cosineSimilarity a b = cosineSimilarity b a := by
  induction a generalizing b with
  | nil => cases b <;> simp [cosineSimilarity]
  | cons x xs ih =>
      cases b with
      | nil => simp [cosineSimilarity]
      | cons y ys =>
          simp only [cosineSimilarity, List.zip_cons_cons, List.map_cons, List.sum_cons]
          rw [mul_comm]
          have := ih ys
          simp only [cosineSimilarity] at this
          rw [this]

/-- filter_mem_length_eq: on a duplicate-free list, counting members of
another list computes the intersection cardinality of the two token
sets. -/
lemma filter_mem_length_eq (A B : List Str) (hA : A.Nodup) :
    (A.filter (fun t => decide (t ∈ B))).length = (A.toFinset ∩ B.toFinset).card := by
  rw [← List.toFinset_card_of_nodup (hA.filter _)]
  congr 1
  rw [List.toFinset_filter]
  ext x
  simp [List.mem_toFinset]

/-- tokenOverlap_comm: the token-overlap ratio is symmetric in its two
arguments. -/
lemma tokenOverlap_comm (a b : Str) : tokenOverlap a b = tokenOverlap b a := by
  simp only [tokenOverlap]
  set A := (splitRuns isWordChar (lowerStr a)).dedup with hAdef
  set B := (splitRuns isWordChar (lowerStr b)).dedup with hBdef
  by_cases hA : A.isEmpty <;> by_cases hB : B.isEmpty <;> simp only [hA, hB,
    Bool.true_or, Bool.or_true, Bool.or_false, Bool.false_or, if_true, if_false]
  have h1 := filter_mem_length_eq A B (List.nodup_dedup _)
  have h2 := filter_mem_length_eq B A (List.nodup_dedup _)
  rw [show (A.filter (fun t => t ∈ B)).length = (B.filter (fun t => t ∈ A)).length from by
    rw [h1, h2, Finset.inter_comm], Nat.min_comm]

/-- dropDuplicateTasks_short: fewer than two tasks pass through
unchanged. -/
lemma dropDuplicateTasks_short (tasks : List TaskDescription)
    (v : Option (List (List ℚ))) (h : tasks.length < 2) :
    dropDuplicateTasks tasks v = tasks := by
  rw [dropDuplicateTasks.eq_def, if_pos h]

/-- dropDuplicateTasks_none_branch: with a failed embedding call the
token-overlap loop runs. -/
lemma dropDuplicateTasks_none_branch (tasks : List TaskDescription)
    (h : ¬ tasks.length < 2) :
    dropDuplicateTasks tasks none = dropAux taskTokenSim overlapThreshold [] tasks := by
  simp [dropDuplicateTasks, h]

/-- dropDuplicateTasks_embed: with vectors for every task the embedding
loop runs on tasks zipped with their vectors. -/
lemma dropDuplicateTasks_embed (tasks : List TaskDescription) (vs : List (List ℚ))
    (h : ¬ tasks.length < 2) (hne : vs ≠ []) (hlen : vs.length = tasks.length) :
    dropDuplicateTasks tasks (some vs) =
      (dropAux pairEmbedSim embedThreshold [] (tasks.zip vs)).map Prod.fst := by
  simp [dropDuplicateTasks, h, List.isEmpty_iff, hne, hlen]

/-- dropDuplicateTasks_some_fallback: vectors of the wrong shape send
the loop to the token-overlap fallback. -/
lemma dropDuplicateTasks_some_fallback (tasks : List TaskDescription)
    (vs : List (List ℚ)) (h : ¬ tasks.length < 2)
    (hc : vs = [] ∨ vs.length ≠ tasks.length) :
    dropDuplicateTasks tasks (some vs) =
      dropAux taskTokenSim overlapThreshold [] tasks := by
  rcases hc with hc | hc
  · subst hc
    simp [dropDuplicateTasks, h]
  · simp [dropDuplicateTasks, h, hc]

/-- dropAux_nil_cons: starting from an empty kept list, the first item
is always kept. -/
lemma dropAux_nil_cons {β : Type} (sim : β → β → ℚ) (thr : ℚ) (b : β)
    (rest : List β) : ∃ t, dropAux sim thr [] (b :: rest) = b :: t := by
  obtain ⟨t, ht⟩ := dropAux_extends sim thr rest [b]
  refine ⟨t, ?_⟩
  rw [show dropAux sim thr [] (b :: rest) = dropAux sim thr ([] ++ [b]) rest from by
    simp [dropAux]]
  simpa using ht

/-- pairwise_of_short: lists of length `< 2` are vacuously pairwise. -/
lemma pairwise_of_short {α : Type} {R : α → α → Prop} (l : List α)
    (h : l.length < 2) : l.Pairwise R := by
  match l, h with
  | [], _ => exact List.Pairwise.nil
  | [t], _ => exact List.pairwise_singleton R t

/-- token_pairwise_of_dropAux converts the loop invariant into the
symmetric overlap bound on the kept tasks. -/
lemma token_pairwise_of_dropAux (l : List TaskDescription)
    (h : l.Pairwise (fun a b => ¬ overlapThreshold < taskTokenSim b a)) :
    l.Pairwise (fun a b =>
      tokenOverlap (combinedText a) (combinedText b) ≤ overlapThreshold) := by
  refine h.imp ?_
  intro a b hab
  have := not_lt.mp hab
  simpa [taskTokenSim, tokenOverlap_comm (combinedText b) (combinedText a)] using this

/-- C2 (counterexample).  Three tasks with duplicate-guard texts
"alpha", "alpha\nbeta", "beta": the middle task is dropped as a
duplicate of the first, after which the third is kept even though its
overlap with the (dropped) second task is `1 > 0.60` — so ">0.60 overlap
between two tasks" alone does not force the later one to be dropped. -/
theorem c2_counterexample :
    overlapThreshold < tokenOverlap (combinedText dupTaskB) (combinedText dupTaskC) ∧
    dropDuplicateTasks [dupTaskA, dupTaskB, dupTaskC] none = [dupTaskA, dupTaskC] :=
  ⟨by decide, by decide⟩

/-- C2 (amended).  Under the token-overlap fallback, whenever the
earlier of two tasks with overlap ratio `> 0.60` is kept, the later one
is dropped: no two tasks kept by duplicate suppression have overlap
ratio above `0.60`. -/
theorem c2_token_overlap_dedup (tasks : List TaskDescription) :
    (dropDuplicateTasks tasks none).Pairwise
      (fun a b =>
        tokenOverlap (combinedText a) (combinedText b) ≤ overlapThreshold) := by
  by_cases h : tasks.length < 2
  · rw [dropDuplicateTasks, if_pos h]
    exact pairwise_of_short tasks h
  · have hout : dropDuplicateTasks tasks none =
        dropAux taskTokenSim overlapThreshold [] tasks := by
      simp [dropDuplicateTasks, h]
    rw [hout]
    exact token_pairwise_of_dropAux _
      (dropAux_pairwise taskTokenSim overlapThreshold tasks [] List.Pairwise.nil)

/-- C3.  When the embedding call fails (`vectors = none`), duplicate
suppression still totally computes a result from the token-overlap
fallback: the output is an order-preserving selection of the input, no
two kept tasks overlap above `0.60`, every dropped task overlaps some
kept task above `0.60`, and short inputs pass through unchanged. -/
theorem c3_embedding_failure_degrades (tasks : List TaskDescription) :
    (dropDuplicateTasks tasks none).Sublist tasks ∧
    (dropDuplicateTasks tasks none).Pairwise
      (fun a b =>
        tokenOverlap (combinedText a) (combinedText b) ≤ overlapThreshold) ∧
    (∀ t ∈ tasks, t ∉ dropDuplicateTasks tasks none →
      ∃ k ∈ dropDuplicateTasks tasks none,
        overlapThreshold < tokenOverlap (combinedText t) (combinedText k)) ∧
    (tasks.length < 2 → dropDuplicateTasks tasks none = tasks) := by
  by_cases h : tasks.length < 2
  · have hout : dropDuplicateTasks tasks none = tasks := by
      rw [dropDuplicateTasks, if_pos h]
    refine ⟨by rw [hout], ?_, ?_, fun _ => hout⟩
    · rw [hout]; exact pairwise_of_short tasks h
    · intro t ht hnt
      rw [hout] at hnt
      exact absurd ht hnt
  · have hout : dropDuplicateTasks tasks none =
        dropAux taskTokenSim overlapThreshold [] tasks := by
      simp [dropDuplicateTasks, h]
    refine ⟨?_, ?_, ?_, fun hlt => absurd hlt h⟩
    · rw [hout]
      simpa using dropAux_sublist taskTokenSim overlapThreshold tasks []
    · rw [hout]
      exact token_pairwise_of_dropAux _
        (dropAux_pairwise taskTokenSim overlapThreshold tasks [] List.Pairwise.nil)
    · intro t ht hnt
      rw [hout] at hnt ⊢
      obtain ⟨k, hk, hsim⟩ := dropAux_dropped taskTokenSim overlapThreshold tasks []
        t (by simpa using ht) hnt
      exact ⟨k, hk, by simpa [taskTokenSim] using hsim⟩

/-- C3 (witness): in the concrete three-task run the dropped middle
task overlaps a kept task above the threshold. -/
theorem c3_embedding_failure_degrades_witness :
    dupTaskB ∈ ([dupTaskA, dupTaskB, dupTaskC] : List TaskDescription) ∧
    dupTaskB ∉ dropDuplicateTasks [dupTaskA, dupTaskB, dupTaskC] none ∧
    ∃ k ∈ dropDuplicateTasks [dupTaskA, dupTaskB, dupTaskC] none,
      overlapThreshold < tokenOverlap (combinedText dupTaskB) (combinedText k) :=
  ⟨by decide, by decide,
    (c3_embedding_failure_degrades [dupTaskA, dupTaskB, dupTaskC]).2.2.1
      dupTaskB (by decide) (by decide)⟩

/-- C4.  With vectors available for all tasks (and at least two tasks),
duplicate suppression is the greedy single pass over tasks paired with
their vectors: the kept list is an order-preserving selection, no kept
pair has similarity above `0.85`, and every dropped task exceeds `0.85`
against some kept task — comparisons only ever involve kept tasks. -/
theorem c4_embedding_dedup (tasks : List TaskDescription) (vs : List (List ℚ))
    (h2 : 2 ≤ tasks.length) (hv : vs.length = tasks.length) :
    dropDuplicateTasks tasks (some vs) =
      (dropAux pairEmbedSim embedThreshold [] (tasks.zip vs)).map Prod.fst ∧
    (dropAux pairEmbedSim embedThreshold [] (tasks.zip vs)).Sublist (tasks.zip vs) ∧
    (dropAux pairEmbedSim embedThreshold [] (tasks.zip vs)).Pairwise
      (fun p q => cosineSimilarity p.2 q.2 ≤ embedThreshold) ∧
    (∀ p ∈ tasks.zip vs, p ∉ dropAux pairEmbedSim embedThreshold [] (tasks.zip vs) →
      ∃ q ∈ dropAux pairEmbedSim embedThreshold [] (tasks.zip vs),
        embedThreshold < cosineSimilarity p.2 q.2) := by
  have hne : vs ≠ [] := by
    intro h0
    subst h0
    simp at hv
    omega
  have hlt : ¬ tasks.length < 2 := by omega
  refine ⟨?_, ?_, ?_, ?_⟩
  · exact dropDuplicateTasks_embed tasks vs hlt hne hv
  · simpa using dropAux_sublist pairEmbedSim embedThreshold (tasks.zip vs) []
  · refine (dropAux_pairwise pairEmbedSim embedThreshold (tasks.zip vs) []
      List.Pairwise.nil).imp ?_
    intro p q hpq
    have := not_lt.mp hpq
    simpa [pairEmbedSim, cosineSimilarity_comm q.2 p.2] using this
  · intro p hp hnp
    obtain ⟨q, hq, hsim⟩ := dropAux_dropped pairEmbedSim embedThreshold (tasks.zip vs)
      [] p (by simpa using hp) hnp
    exact ⟨q, hq, by simpa [pairEmbedSim] using hsim⟩

/-- C4 (witness): two tasks with orthogonal unit vectors satisfy the
hypotheses, and the embedding branch is taken. -/
theorem c4_embedding_dedup_witness :
    2 ≤ ([dupTaskA, dupTaskC] : List TaskDescription).length ∧
    orthoVecs.length = ([dupTaskA, dupTaskC] : List TaskDescription).length ∧
    dropDuplicateTasks [dupTaskA, dupTaskC] (some orthoVecs) =
      (dropAux pairEmbedSim embedThreshold []
        (([dupTaskA, dupTaskC] : List TaskDescription).zip orthoVecs)).map Prod.fst :=
  ⟨by decide, by decide,
    (c4_embedding_dedup [dupTaskA, dupTaskC] orthoVecs (by decide) (by decide)).1⟩

/-- C7.  Duplicate suppression is idempotent under either similarity
method: re-running the fallback dedup on its own output changes
nothing, and re-running the embedding dedup on the kept tasks with
their own (kept) vectors changes nothing. -/
theorem c7_dedup_idempotent :
    (∀ tasks : List TaskDescription,
      dropDuplicateTasks (dropDuplicateTasks tasks none) none =
        dropDuplicateTasks tasks none) ∧
    (∀ (tasks : List TaskDescription) (vs : List (List ℚ)),
      dropDuplicateTasks
          ((dropAux pairEmbedSim embedThreshold [] (tasks.zip vs)).map Prod.fst)
          (some ((dropAux pairEmbedSim embedThreshold [] (tasks.zip vs)).map Prod.snd)) =
        (dropAux pairEmbedSim embedThreshold [] (tasks.zip vs)).map Prod.fst) := by
  constructor
  · intro tasks
    by_cases h : tasks.length < 2
    · simp [dropDuplicateTasks, h]
    · have hout : dropDuplicateTasks tasks none =
          dropAux taskTokenSim overlapThreshold [] tasks := by
        simp [dropDuplicateTasks, h]
      rw [hout]
      have hpw := dropAux_pairwise taskTokenSim overlapThreshold tasks [] List.Pairwise.nil
      by_cases h2 : (dropAux taskTokenSim overlapThreshold [] tasks).length < 2
      · simp [dropDuplicateTasks, h2]
      · have hfix := dropAux_of_pairwise taskTokenSim overlapThreshold
          (dropAux taskTokenSim overlapThreshold [] tasks) [] (by simpa using hpw)
        simp only [List.nil_append] at hfix
        simp [dropDuplicateTasks, h2, hfix]
  · intro tasks vs
    have hpw := dropAux_pairwise pairEmbedSim embedThreshold (tasks.zip vs) []
      List.Pairwise.nil
    set z := dropAux pairEmbedSim embedThreshold [] (tasks.zip vs) with hz
    by_cases h : (z.map Prod.fst).length < 2
    · exact dropDuplicateTasks_short _ _ h
    · have hne : z.map Prod.snd ≠ [] := by
        intro h0
        rw [List.map_eq_nil_iff] at h0
        rw [h0] at h
        simp at h
      have hzip : (z.map Prod.fst).zip (z.map Prod.snd) = z := by
        have := List.zip_unzip z
        simpa [List.unzip_eq_map] using this
      have hfix := dropAux_of_pairwise pairEmbedSim embedThreshold z []
        (by simpa using hpw)
      simp only [List.nil_append] at hfix
      rw [dropDuplicateTasks_embed _ _ h hne (by simp), hzip, hfix]

/-- dropDuplicateTasks_cons: the head of a non-empty task list is always
kept, whatever the vectors. -/
lemma dropDuplicateTasks_cons (t : TaskDescription) (ts : List TaskDescription)
    (v : Option (List (List ℚ))) :
    ∃ out, dropDuplicateTasks (t :: ts) v = t :: out := by
  by_cases h : (t :: ts).length < 2
  · exact ⟨ts, dropDuplicateTasks_short _ _ h⟩
  · cases v with
    | none =>
        obtain ⟨tail, htail⟩ := dropAux_nil_cons taskTokenSim overlapThreshold t ts
        exact ⟨tail, by rw [dropDuplicateTasks_none_branch _ h, htail]⟩
    | some vs =>
        by_cases hc : vs ≠ [] ∧ vs.length = (t :: ts).length
        · rcases vs with _ | ⟨v0, vrest⟩
          · exact absurd rfl hc.1
          · obtain ⟨tail, htail⟩ := dropAux_nil_cons pairEmbedSim embedThreshold
              (t, v0) (ts.zip vrest)
            refine ⟨tail.map Prod.fst, ?_⟩
            rw [dropDuplicateTasks_embed _ _ h hc.1 hc.2,
              show ((t :: ts).zip (v0 :: vrest)) = (t, v0) :: ts.zip vrest from rfl,
              htail]
            simp
        · obtain ⟨tail, htail⟩ := dropAux_nil_cons taskTokenSim overlapThreshold t ts
          refine ⟨tail, ?_⟩
          have hc' : vs = [] ∨ vs.length ≠ (t :: ts).length := by
            rcases not_and_or.mp hc with h1 | h2
            · exact Or.inl (not_not.mp h1)
            · exact Or.inr h2
          rw [dropDuplicateTasks_some_fallback _ _ h hc', htail]

/-- attemptOnce_ok_inv: a successful attempt decomposes into a decoded
response and a successful payload processing. -/
lemma attemptOnce_ok_inv (topic hint : Str) (prompt : Str × Str)
    (respond : Str × Str → Nat → Except Str Json)
    (embed : Nat → Option (List (List ℚ))) (n : Nat) (r : LeadAgentResult)
    (h : attemptOnce topic hint prompt respond embed n = .ok r) :
    ∃ payload, respond prompt n = .ok payload ∧
      processPayload topic hint payload (embed n) = .ok r := by
  unfold attemptOnce at h
  cases hresp : respond prompt n with
  | error e => rw [hresp] at h; exact absurd h (by simp)
  | ok payload => rw [hresp] at h; exact ⟨payload, rfl, h⟩

/-- C8.  Duplicate suppression keeps the first task of any non-empty
input, a successfully processed payload with a non-empty parsed task
list reports `subagent_count ≥ 1`, and every successful `run_lead_agent`
outcome comes from a successfully processed payload of one of the two
attempts. -/
theorem c8_dedup_never_empties :
    (∀ (t : TaskDescription) (ts : List TaskDescription)
        (v : Option (List (List ℚ))),
      ∃ out, dropDuplicateTasks (t :: ts) v = t :: out) ∧
    (∀ (topic hint : Str) (fields : List (Str × Json))
        (vecs : Option (List (List ℚ))) (r : LeadAgentResult)
        (tasks : List TaskDescription),
      processPayload topic hint (.obj fields) vecs = .ok r →
      parseTaskDescriptions (jsonLookup fields "task_descriptions".data) = .ok tasks →
      tasks ≠ [] → r.task_descriptions ≠ [] ∧ 1 ≤ r.subagent_count) ∧
    (∀ (topic : Str) (respond : Str × Str → Nat → Except Str Json)
        (embed : Nat → Option (List (List ℚ))) (r : LeadAgentResult),
      (runLeadAgent topic respond embed).1 = .ok r →
      ∃ n payload, n < 2 ∧
        respond (buildLeadAgentPrompt topic (heuristicComplexity topic)) n = .ok payload ∧
        processPayload topic (heuristicComplexity topic) payload (embed n) = .ok r) := by
  refine ⟨dropDuplicateTasks_cons, ?_, ?_⟩
  · intro topic hint fields vecs r tasks h hp hne
    simp only [processPayload] at h
    cases hc : jsonLookup fields "complexity".data with
    | none => rw [hc] at h; exact absurd h (by simp)
    | some c =>
        cases hr : jsonLookup fields "reasoning".data with
        | none => rw [hc, hr] at h; exact absurd h (by simp)
        | some rs =>
            rw [hc, hr, hp] at h
            simp only [Except.ok.injEq] at h
            subst h
            obtain ⟨t, ts, rfl⟩ : ∃ t ts, tasks = t :: ts := by
              cases tasks with
              | nil => exact absurd rfl hne
              | cons t ts => exact ⟨t, ts, rfl⟩
            obtain ⟨out, hout⟩ := dropDuplicateTasks_cons t ts vecs
            constructor
            · simp [hout]
            · simp [hout]
  · intro topic respond embed r h
    simp only [runLeadAgent] at h
    cases h0 : attemptOnce topic (heuristicComplexity topic)
        (buildLeadAgentPrompt topic (heuristicComplexity topic)) respond embed 0 with
    | ok r0 =>
        rw [h0] at h
        simp only [Except.ok.injEq] at h
        subst h
        obtain ⟨payload, hresp, hproc⟩ := attemptOnce_ok_inv _ _ _ _ _ _ _ h0
        exact ⟨0, payload, by omega, hresp, hproc⟩
    | error e0 =>
        rw [h0] at h
        cases h1 : attemptOnce topic (heuristicComplexity topic)
            (buildLeadAgentPrompt topic (heuristicComplexity topic)) respond embed 1 with
        | ok r1 =>
            rw [h1] at h
            simp only [Except.ok.injEq] at h
            subst h
            obtain ⟨payload, hresp, hproc⟩ := attemptOnce_ok_inv _ _ _ _ _ _ _ h1
            exact ⟨1, payload, by omega, hresp, hproc⟩
        | error e1 =>
            rw [h1] at h
            exact absurd h (by simp)

/-- C8 (witness): a concrete successful run with one task reports one
subagent. -/
theorem c8_dedup_never_empties_witness :
    (runLeadAgent "t".data respondOk embedNone).1 = .ok sampleLeadResult ∧
    (∃ n payload, n < 2 ∧
      respondOk (buildLeadAgentPrompt "t".data (heuristicComplexity "t".data)) n =
        .ok payload ∧
      processPayload "t".data (heuristicComplexity "t".data) payload (embedNone n) =
        .ok sampleLeadResult) :=
  ⟨by decide,
    c8_dedup_never_empties.2.2 "t".data respondOk embedNone sampleLeadResult (by decide)⟩

/-- C1.  `run_lead_agent` issues at most two completion requests, both
with the same system and user prompt: a first-attempt success is
returned at once after a single request; any first-attempt
parse/validation failure causes exactly one retry with the identical
prompt (two requests are logged whatever the retry's outcome); a
successful retry is returned; and when both attempts fail the function
fails fatally with the error built from the last failure. -/
theorem c1_retry_policy (topic : Str)
    (respond : Str × Str → Nat → Except Str Json)
    (embed : Nat → Option (List (List ℚ))) :
    ((runLeadAgent topic respond embed).2 =
        [(buildLeadAgentPrompt topic (heuristicComplexity topic), 0)] ∨
      (runLeadAgent topic respond embed).2 =
        [(buildLeadAgentPrompt topic (heuristicComplexity topic), 0),
         (buildLeadAgentPrompt topic (heuristicComplexity topic), 1)]) ∧
    (∀ r, attemptOnce topic (heuristicComplexity topic)
        (buildLeadAgentPrompt topic (heuristicComplexity topic)) respond embed 0 = .ok r →
      runLeadAgent topic respond embed =
        (.ok r, [(buildLeadAgentPrompt topic (heuristicComplexity topic), 0)])) ∧
    (∀ e0 e1,
      attemptOnce topic (heuristicComplexity topic)
        (buildLeadAgentPrompt topic (heuristicComplexity topic)) respond embed 0 = .error e0 →
      attemptOnce topic (heuristicComplexity topic)
        (buildLeadAgentPrompt topic (heuristicComplexity topic)) respond embed 1 = .error e1 →
      runLeadAgent topic respond embed =
        (.error (retryMessage e1),
         [(buildLeadAgentPrompt topic (heuristicComplexity topic), 0),
          (buildLeadAgentPrompt topic (heuristicComplexity topic), 1)])) ∧
    (∀ e0,
      attemptOnce topic (heuristicComplexity topic)
        (buildLeadAgentPrompt topic (heuristicComplexity topic)) respond embed 0 = .error e0 →
      (runLeadAgent topic respond embed).2 =
        [(buildLeadAgentPrompt topic (heuristicComplexity topic), 0),
         (buildLeadAgentPrompt topic (heuristicComplexity topic), 1)]) ∧
    (∀ e0 r,
      attemptOnce topic (heuristicComplexity topic)
        (buildLeadAgentPrompt topic (heuristicComplexity topic)) respond embed 0 = .error e0 →
      attemptOnce topic (heuristicComplexity topic)
        (buildLeadAgentPrompt topic (heuristicComplexity topic)) respond embed 1 = .ok r →
      runLeadAgent topic respond embed =
        (.ok r,
         [(buildLeadAgentPrompt topic (heuristicComplexity topic), 0),
          (buildLeadAgentPrompt topic (heuristicComplexity topic), 1)])) := by
  cases h0 : attemptOnce topic (heuristicComplexity topic)
      (buildLeadAgentPrompt topic (heuristicComplexity topic)) respond embed 0 with
  | ok r0 =>
      have hrun : runLeadAgent topic respond embed =
          (.ok r0, [(buildLeadAgentPrompt topic (heuristicComplexity topic), 0)]) := by
        simp [runLeadAgent, h0]
      refine ⟨Or.inl (by rw [hrun]), ?_, ?_, ?_, ?_⟩
      · intro r hr
        simp only [Except.ok.injEq] at hr
        subst hr
        exact hrun
      · intro e0 e1 h0' _
        exact absurd h0' (by simp)
      · intro e0 h0'
        exact absurd h0' (by simp)
      · intro e0 r h0' _
        exact absurd h0' (by simp)
  | error e =>
      cases h1 : attemptOnce topic (heuristicComplexity topic)
          (buildLeadAgentPrompt topic (heuristicComplexity topic)) respond embed 1 with
      | ok r1 =>
          have hrun : runLeadAgent topic respond embed =
              (.ok r1, [(buildLeadAgentPrompt topic (heuristicComplexity topic), 0),
                        (buildLeadAgentPrompt topic (heuristicComplexity topic), 1)]) := by
            simp [runLeadAgent, h0, h1]
          refine ⟨Or.inr (by rw [hrun]), ?_, ?_, ?_, ?_⟩
          · intro r hr
            exact absurd hr (by simp)
          · intro e0 e1 _ h1'
            exact absurd h1' (by simp)
          · intro e0 _
            rw [hrun]
          · intro e0 r _ h1'
            simp only [Except.ok.injEq] at h1'
            subst h1'
            exact hrun
      | error e1' =>
          have hrun : runLeadAgent topic respond embed =
              (.error (retryMessage e1'),
               [(buildLeadAgentPrompt topic (heuristicComplexity topic), 0),
                (buildLeadAgentPrompt topic (heuristicComplexity topic), 1)]) := by
            simp [runLeadAgent, h0, h1]
          refine ⟨Or.inr (by rw [hrun]), ?_, ?_, ?_, ?_⟩
          · intro r hr
            exact absurd hr (by simp)
          · intro e0 e1 _ h1'
            simp only [Except.error.injEq] at h1'
            subst h1'
            exact hrun
          · intro e0 _
            rw [hrun]
          · intro e0 r _ h1'
            exact absurd h1' (by simp)

/-- C1 (witness): an oracle failing at attempt 0 and decoding at
attempt 1 is retried once with the identical prompt and the retry's
success is returned; an oracle failing at both attempts yields the
fatal error carrying the last failure, also after two identical
requests. -/
theorem c1_retry_policy_witness :
    attemptOnce "t".data (heuristicComplexity "t".data)
      (buildLeadAgentPrompt "t".data (heuristicComplexity "t".data))
      respondRetry embedNone 0 = .error "bad json".data ∧
    attemptOnce "t".data (heuristicComplexity "t".data)
      (buildLeadAgentPrompt "t".data (heuristicComplexity "t".data))
      respondRetry embedNone 1 = .ok sampleLeadResult ∧
    runLeadAgent "t".data respondRetry embedNone =
      (.ok sampleLeadResult,
       [(buildLeadAgentPrompt "t".data (heuristicComplexity "t".data), 0),
        (buildLeadAgentPrompt "t".data (heuristicComplexity "t".data), 1)]) ∧
    attemptOnce "t".data (heuristicComplexity "t".data)
      (buildLeadAgentPrompt "t".data (heuristicComplexity "t".data))
      respondBad embedNone 0 = .error "bad json".data ∧
    attemptOnce "t".data (heuristicComplexity "t".data)
      (buildLeadAgentPrompt "t".data (heuristicComplexity "t".data))
      respondBad embedNone 1 = .error "bad json".data ∧
    runLeadAgent "t".data respondBad embedNone =
      (.error (retryMessage "bad json".data),
       [(buildLeadAgentPrompt "t".data (heuristicComplexity "t".data), 0),
        (buildLeadAgentPrompt "t".data (heuristicComplexity "t".data), 1)]) :=
  ⟨rfl, by decide,
    (c1_retry_policy "t".data respondRetry embedNone).2.2.2.2 "bad json".data
      sampleLeadResult rfl (by decide),
    rfl, rfl,
    (c1_retry_policy "t".data respondBad embedNone).2.2.1 "bad json".data "bad json".data
      rfl rfl⟩

/-- C6 (counterexample).  The end-to-end example topic has five words,
not four, so the heuristic hint is "moderate", not "simple". -/
theorem c6_counterexample :
    heuristicComplexity "emerging defensive tactics in football".data =
      "moderate".data ∧
    "moderate".data ≠ "simple".data :=
  ⟨by decide, by decide⟩

/-- C6 (amended).  The heuristic hint is "complex" for ≥ 10 words or a
connective marker, "simple" for ≤ 4 words without a marker, "moderate"
otherwise; the example topic "emerging defensive tactics in football"
(five words) receives "moderate"; and a single-task decomposition is
accepted unchanged by duplicate suppression. -/
theorem c6_heuristic_hint :
    (∀ topic : Str,
      10 ≤ (splitRuns (fun c => !(isPySpace c)) topic).length ∨
        markerWords.any (fun m => containsSub m (lowerStr topic)) = true →
      heuristicComplexity topic = "complex".data) ∧
    (∀ topic : Str,
      (splitRuns (fun c => !(isPySpace c)) topic).length ≤ 4 ∧
        markerWords.any (fun m => containsSub m (lowerStr topic)) = false →
      heuristicComplexity topic = "simple".data) ∧
    (∀ topic : Str,
      5 ≤ (splitRuns (fun c => !(isPySpace c)) topic).length ∧
        (splitRuns (fun c => !(isPySpace c)) topic).length ≤ 9 ∧
        markerWords.any (fun m => containsSub m (lowerStr topic)) = false →
      heuristicComplexity topic = "moderate".data) ∧
    heuristicComplexity "emerging defensive tactics in football".data =
      "moderate".data ∧
    (∀ (t : TaskDescription) (v : Option (List (List ℚ))),
      dropDuplicateTasks [t] v = [t]) := by
  refine ⟨?_, ?_, ?_, by decide, ?_⟩
  · intro topic h
    have hcond : (decide (10 ≤ (splitRuns (fun c => !(isPySpace c)) topic).length) ||
        markerWords.any (fun m => containsSub m (lowerStr topic))) = true := by
      rcases h with h | h
      · simp [h]
      · simp [h]
    simp [heuristicComplexity, hcond]
  · intro topic h
    have h10 : ¬ 10 ≤ (splitRuns (fun c => !(isPySpace c)) topic).length := by omega
    simp [heuristicComplexity, h10, h.2, h.1]
  · intro topic h
    have h10 : ¬ 10 ≤ (splitRuns (fun c => !(isPySpace c)) topic).length := by omega
    have h4 : ¬ (splitRuns (fun c => !(isPySpace c)) topic).length ≤ 4 := by omega
    simp [heuristicComplexity, h10, h4, h.2.2]
  · intro t v
    exact dropDuplicateTasks_short [t] v (by simp)

/-- C6 (witness): the example topic satisfies the "moderate" band's
hypotheses. -/
theorem c6_heuristic_hint_witness :
    (5 ≤ (splitRuns (fun c => !(isPySpace c))
        "emerging defensive tactics in football".data).length ∧
      (splitRuns (fun c => !(isPySpace c))
        "emerging defensive tactics in football".data).length ≤ 9 ∧
      markerWords.any (fun m => containsSub m
        (lowerStr "emerging defensive tactics in football".data)) = false) ∧
    heuristicComplexity "emerging defensive tactics in football".data =
      "moderate".data :=
  ⟨⟨by decide, by decide, by decide⟩,
    c6_heuristic_hint.2.2.1 "emerging defensive tactics in football".data
      ⟨by decide, by decide, by decide⟩⟩

/-- parseTaskItem_ok_slug: a task object that validates yields a slug
matching the pattern. -/
lemma parseTaskItem_ok_slug (idx : Nat) (item : Json) (t : TaskDescription)
    (h : parseTaskItem idx item = .ok t) : matchesSlug t.angle_slug = true := by
  cases item with
  | obj fields =>
      simp only [parseTaskItem] at h
      by_cases hm : (requiredTaskKeys.filter
          (fun k => !(fields.any (fun p => p.1 == k)))).isEmpty
      · rw [if_pos hm] at h
        by_cases hs : matchesSlug (lowerStr (strField fields "angle_slug".data))
        · rw [if_pos hs] at h
          simp only [Except.ok.injEq] at h
          subst h
          exact hs
        · rw [if_neg hs] at h
          exact absurd h (by simp)
      · rw [if_neg hm] at h
        exact absurd h (by simp)
  | null => exact absurd h (by simp [parseTaskItem])
  | bool b => exact absurd h (by simp [parseTaskItem])
  | num n => exact absurd h (by simp [parseTaskItem])
  | str s => exact absurd h (by simp [parseTaskItem])
  | arr xs => exact absurd h (by simp [parseTaskItem])

/-- parseTaskItems_ok_slugs: every task returned by a successful parse
run has a pattern-conforming slug. -/
lemma parseTaskItems_ok_slugs (items : List Json) :
    ∀ idx tasks, parseTaskItems idx items = .ok tasks →
      ∀ t ∈ tasks, matchesSlug t.angle_slug = true := by
  induction items with
  | nil =>
      intro idx tasks h t ht
      simp only [parseTaskItems, Except.ok.injEq] at h
      subst h
      simp at ht
  | cons item rest ih =>
      intro idx tasks h t ht
      simp only [parseTaskItems] at h
      cases h0 : parseTaskItem idx item with
      | error e => rw [h0] at h; exact absurd h (by simp)
      | ok t0 =>
          rw [h0] at h
          cases h1 : parseTaskItems (idx + 1) rest with
          | error e => rw [h1] at h; exact absurd h (by simp)
          | ok ts0 =>
              rw [h1] at h
              simp only [Except.ok.injEq] at h
              subst h
              rcases List.mem_cons.mp ht with rfl | hmem
              · exact parseTaskItem_ok_slug idx item t h0
              · exact ih (idx + 1) ts0 h1 t hmem

/-- parseTaskItem_error_of_bad_slug: a task object whose normalized
`angle_slug` fails the pattern never validates, at any index. -/
lemma parseTaskItem_error_of_bad_slug (idx : Nat) (item : Json) (s : Str)
    (hs : normalizedSlug item = some s) (hbad : matchesSlug s = false) :
    ∃ e, parseTaskItem idx item = .error e := by
  cases item with
  | obj fields =>
      simp only [normalizedSlug] at hs
      cases hl : jsonLookup fields "angle_slug".data with
      | none => rw [hl] at hs; exact absurd hs (by simp)
      | some v =>
          rw [hl] at hs
          simp only [Option.map_some', Option.some.injEq] at hs
          simp only [parseTaskItem]
          by_cases hm : (requiredTaskKeys.filter
              (fun k => !(fields.any (fun p => p.1 == k)))).isEmpty
          · rw [if_pos hm]
            have hcond : matchesSlug (lowerStr (strField fields "angle_slug".data)) = false := by
              rw [show strField fields "angle_slug".data = stripStr (pyStr v) from by
                simp [strField, hl]]
              rw [hs]
              exact hbad
            rw [if_neg (by simp [hcond])]
            exact ⟨_, rfl⟩
          · rw [if_neg hm]
            exact ⟨_, rfl⟩
  | null => exact absurd hs (by simp [normalizedSlug])
  | bool b => exact absurd hs (by simp [normalizedSlug])
  | num n => exact absurd hs (by simp [normalizedSlug])
  | str s' => exact absurd hs (by simp [normalizedSlug])
  | arr xs => exact absurd hs (by simp [normalizedSlug])

/-- parseTaskItems_error_of_mem: a list containing an item that fails at
every index makes the whole run fail. -/
lemma parseTaskItems_error_of_mem (items : List Json) :
    ∀ idx i item, items.get? i = some item →
      (∀ j, ∃ e, parseTaskItem j item = .error e) →
      ∃ e, parseTaskItems idx items = .error e := by
  induction items with
  | nil => intro idx i item hi _; simp at hi
  | cons hd rest ih =>
      intro idx i item hi hbad
      cases i with
      | zero =>
          simp only [List.get?_cons_zero, Option.some.injEq] at hi
          subst hi
          obtain ⟨e, he⟩ := hbad idx
          exact ⟨e, by simp [parseTaskItems, he]⟩
      | succ i' =>
          simp only [List.get?_cons_succ] at hi
          cases h0 : parseTaskItem idx hd with
          | error e => exact ⟨e, by simp [parseTaskItems, h0]⟩
          | ok t =>
              obtain ⟨e, he⟩ := ih (idx + 1) i' item hi hbad
              exact ⟨e, by simp [parseTaskItems, h0, he]⟩

/-- C5 (counterexample).  A payload whose raw `angle_slug` `"ABC"` fails
the slug pattern does not make the parse fail: the slug is lower-cased
to `"abc"` first and the parse succeeds. -/
theorem c5_counterexample :
    matchesSlug "ABC".data = false ∧
    parseTaskDescriptions (some (.arr [upperSlugItem])) = .ok [upperSlugParsedTask] ∧
    upperSlugParsedTask.angle_slug = "abc".data :=
  ⟨by decide, by decide, by decide⟩

/-- C5 (amended).  Every returned TaskDescription's `angle_slug` matches
`[a-z0-9]+(-[a-z0-9]+)*`; and any payload containing a task object whose
`angle_slug`, after `str(...).strip().lower()` normalization, fails the
pattern makes the whole parse fail rather than return a partial list. -/
theorem c5_slug_validation :
    (∀ (v : Option Json) (tasks : List TaskDescription),
      parseTaskDescriptions v = .ok tasks →
      ∀ t ∈ tasks, matchesSlug t.angle_slug = true) ∧
    (∀ (items : List Json) (i : Nat) (item : Json) (s : Str),
      items.get? i = some item → normalizedSlug item = some s →
      matchesSlug s = false →
      ∃ e, parseTaskDescriptions (some (.arr items)) = .error e) := by
  constructor
  · intro v tasks h t ht
    cases v with
    | none => exact absurd h (by simp [parseTaskDescriptions])
    | some j =>
        cases j with
        | arr items => exact parseTaskItems_ok_slugs items 0 tasks h t ht
        | null => exact absurd h (by simp [parseTaskDescriptions])
        | bool b => exact absurd h (by simp [parseTaskDescriptions])
        | num n => exact absurd h (by simp [parseTaskDescriptions])
        | str s => exact absurd h (by simp [parseTaskDescriptions])
        | obj fs => exact absurd h (by simp [parseTaskDescriptions])
  · intro items i item s hi hslug hbad
    exact parseTaskItems_error_of_mem items 0 i item hi
      (fun j => parseTaskItem_error_of_bad_slug j item s hslug hbad)

/-- C5 (witness): a payload whose normalized slug `"bad slug"` fails the
pattern makes the parse fail. -/
theorem c5_slug_validation_witness :
    ([badSlugItem].get? 0 = some badSlugItem) ∧
    normalizedSlug badSlugItem = some "bad slug".data ∧
    matchesSlug "bad slug".data = false ∧
    ∃ e, parseTaskDescriptions (some (.arr [badSlugItem])) = .error e :=
  ⟨rfl, rfl, by decide,
    c5_slug_validation.2 [badSlugItem] 0 badSlugItem "bad slug".data rfl rfl (by decide)⟩

/-!  Lemmas about `_slugify` for the report-path claim. -/

/-- slugifySub_chars: the substitution only emits `[a-z0-9]` characters
and dashes. -/
lemma slugifySub_chars (s : Str) :
    ∀ b, (slugifySub b s).all (fun c => isLowerAlnum c || c == '-') = true := by
  induction s with
  | nil => intro b; rfl
  | cons c cs ih =>
      intro b
      by_cases hc : isLowerAlnum c
      · simp [slugifySub, hc, ih false]
      · by_cases hb : b
        · simp [slugifySub, hc, hb, ih true]
        · simp [slugifySub, hc, hb, ih true]

/-- slugifySub_head: scanning from inside a non-alphanumeric run, the
next emitted character is never a dash. -/
lemma slugifySub_head (s : Str) : (slugifySub true s).head? ≠ some '-' := by
  induction s with
  | nil => simp [slugifySub]
  | cons c cs ih =>
      by_cases hc : isLowerAlnum c
      · simp only [slugifySub, hc, if_true, List.head?_cons, ne_eq, Option.some.injEq]
        intro heq
        rw [heq] at hc
        exact absurd hc (by decide)
      · simpa [slugifySub, hc] using ih

/-- noDoubleDash_cons: prepending keeps the no-double-dash invariant
when the pair at the seam is safe. -/
lemma noDoubleDash_cons (a : Char) (l : Str) (hl : noDoubleDash l = true)
    (h : a ≠ '-' ∨ l.head? ≠ some '-') : noDoubleDash (a :: l) = true := by
  cases l with
  | nil => rfl
  | cons b rest =>
      rcases h with h | h
      · simp [noDoubleDash, hl, h]
      · simp only [List.head?_cons, ne_eq, Option.some.injEq] at h
        simp [noDoubleDash, hl, h]

/-- slugifySub_noDD: the substitution never emits two adjacent
dashes. -/
lemma slugifySub_noDD (s : Str) : ∀ b, noDoubleDash (slugifySub b s) = true := by
  induction s with
  | nil => intro b; rfl
  | cons c cs ih =>
      intro b
      by_cases hc : isLowerAlnum c
      · rw [show slugifySub b (c :: cs) = c :: slugifySub false cs from by
          simp [slugifySub, hc]]
        refine noDoubleDash_cons _ _ (ih false) (Or.inl ?_)
        intro heq
        rw [heq] at hc
        exact absurd hc (by decide)
      · by_cases hb : b
        · rw [show slugifySub b (c :: cs) = slugifySub true cs from by
            simp [slugifySub, hc, hb]]
          exact ih true
        · rw [show slugifySub b (c :: cs) = '-' :: slugifySub true cs from by
            simp [slugifySub, hc, hb]]
          exact noDoubleDash_cons _ _ (ih true) (Or.inr (slugifySub_head cs))

/-- noDoubleDash_tail: the invariant passes to the tail. -/
lemma noDoubleDash_tail (a : Char) (l : Str) (h : noDoubleDash (a :: l) = true) :
    noDoubleDash l = true := by
  cases l with
  | nil => rfl
  | cons b rest =>
      simp only [noDoubleDash, Bool.and_eq_true] at h
      exact h.2

/-- noDoubleDash_suffix: the invariant passes to suffixes. -/
lemma noDoubleDash_suffix (l₂ l₁ : Str) (h : l₂ <:+ l₁)
    (hl : noDoubleDash l₁ = true) : noDoubleDash l₂ = true := by
  obtain ⟨t, rfl⟩ := h
  induction t with
  | nil => simpa using hl
  | cons a t' ih => exact ih (noDoubleDash_tail a _ hl)

/-- noDoubleDash_iff_chain: the boolean scan agrees with the chain
condition on adjacent pairs. -/
lemma noDoubleDash_iff_chain : ∀ l : Str,
    (noDoubleDash l = true ↔ List.Chain' (fun a b => ¬(a = '-' ∧ b = '-')) l)
  | [] => by simp [noDoubleDash]
  | [a] => by simp [noDoubleDash]
  | a :: b :: rest => by
      rw [List.chain'_cons, ← noDoubleDash_iff_chain (b :: rest)]
      simp only [noDoubleDash, Bool.and_eq_true, Bool.not_eq_true']
      constructor
      · rintro ⟨h1, h2⟩
        refine ⟨?_, h2⟩
        rintro ⟨ha, hb⟩
        rw [ha, hb] at h1
        simp at h1
      · rintro ⟨h1, h2⟩
        refine ⟨?_, h2⟩
        by_cases ha : a = '-'
        · by_cases hb : b = '-'
          · exact absurd ⟨ha, hb⟩ h1
          · simp [ha, hb]
        · simp [ha]

/-- noDoubleDash_reverse: the invariant is preserved by reversal. -/
lemma noDoubleDash_reverse (l : Str) :
    noDoubleDash l.reverse = true ↔ noDoubleDash l = true := by
  rw [noDoubleDash_iff_chain, noDoubleDash_iff_chain, List.chain'_reverse]
  constructor
  · intro h
    refine h.imp ?_
    intro a b hab
    intro hc
    exact hab ⟨hc.2, hc.1⟩
  · intro h
    refine h.imp ?_
    intro a b hab
    intro hc
    exact hab ⟨hc.2, hc.1⟩

/-- head?_dropWhile_not: the first surviving element fails the dropped
predicate. -/
lemma head?_dropWhile_not (q : Char → Bool) (l : Str) (a : Char)
    (h : (l.dropWhile q).head? = some a) : q a = false := by
  induction l with
  | nil => simp [List.dropWhile] at h
  | cons c cs ih =>
      rw [List.dropWhile_cons] at h
      by_cases hq : q c = true
      · rw [if_pos hq] at h
        exact ih h
      · rw [if_neg hq] at h
        simp only [List.head?_cons, Option.some.injEq] at h
        subst h
        simpa using hq

/-- head?_of_leading: a non-empty prefix determines the head. -/
lemma head?_of_leading {l₁ l₂ : Str} (h : l₁ <+: l₂) (hne : l₁ ≠ []) :
    l₂.head? = l₁.head? := by
  obtain ⟨r, rfl⟩ := h
  cases l₁ with
  | nil => exact absurd rfl hne
  | cons a t => rfl

/-- stripDashes_all: stripping boundary dashes keeps any all-characters
property. -/
lemma stripDashes_all (s : Str) (p : Char → Bool) (h : s.all p = true) :
    (stripDashes s).all p = true := by
  simp only [List.all_eq_true] at h ⊢
  intro x hx
  apply h
  unfold stripDashes at hx
  have hx1 := List.mem_reverse.mp hx
  have hx2 := (List.dropWhile_sublist _).mem hx1
  have hx3 := List.mem_reverse.mp hx2
  exact (List.dropWhile_sublist _).mem hx3

/-- stripDashes_noDD: stripping boundary dashes keeps the no-double-dash
invariant. -/
lemma stripDashes_noDD (s : Str) (h : noDoubleDash s = true) :
    noDoubleDash (stripDashes s) = true := by
  unfold stripDashes
  rw [noDoubleDash_reverse]
  refine noDoubleDash_suffix _ _ (List.dropWhile_suffix _) ?_
  rw [noDoubleDash_reverse]
  exact noDoubleDash_suffix _ _ (List.dropWhile_suffix _) h

/-- stripDashes_head: the stripped string never starts with a dash. -/
lemma stripDashes_head (s : Str) :
    ∀ a, (stripDashes s).head? = some a → a ≠ '-' := by
  intro a ha
  unfold stripDashes at ha
  have hune : ((s.dropWhile (fun c => c == '-')).reverse.dropWhile
      (fun c => c == '-')).reverse ≠ [] := by
    intro h0
    rw [h0] at ha
    simp at ha
  have hpre : ((s.dropWhile (fun c => c == '-')).reverse.dropWhile
      (fun c => c == '-')).reverse <+: s.dropWhile (fun c => c == '-') := by
    have hsuf := List.dropWhile_suffix (l := (s.dropWhile (fun c => c == '-')).reverse)
      (fun c => c == '-')
    have := List.reverse_prefix.mpr hsuf
    simpa using this
  have hheadt : (s.dropWhile (fun c => c == '-')).head? = some a := by
    rw [head?_of_leading hpre hune]
    exact ha
  have := head?_dropWhile_not (fun c => c == '-') s a hheadt
  simpa using this

/-- stripDashes_last: the stripped string never ends with a dash. -/
lemma stripDashes_last (s : Str) :
    ∀ a, (stripDashes s).getLast? = some a → a ≠ '-' := by
  intro a ha
  unfold stripDashes at ha
  rw [List.getLast?_reverse] at ha
  have := head?_dropWhile_not (fun c => c == '-') _ a ha
  simpa using this

/-- matchesSlug_of_parts: the four structural conditions assemble into
the slug pattern. -/
lemma matchesSlug_of_parts (s : Str) (hne : s ≠ [])
    (hall : s.all (fun c => isLowerAlnum c || c == '-') = true)
    (hhead : ∀ a, s.head? = some a → a ≠ '-')
    (hlast : ∀ a, s.getLast? = some a → a ≠ '-')
    (hnodd : noDoubleDash s = true) : matchesSlug s = true := by
  have h1 : s.isEmpty = false := by simpa [List.isEmpty_iff] using hne
  have h2 : (s.head? == some '-') = false := by
    cases hh : s.head? with
    | none => rfl
    | some a =>
        have := hhead a hh
        simpa using this
  have h3 : (s.getLast? == some '-') = false := by
    cases hh : s.getLast? with
    | none => rfl
    | some a =>
        have := hlast a hh
        simpa using this
  simp [matchesSlug, h1, hall, h2, h3, hnodd]

/-- slugifySub_all_dash: on input without `[a-z0-9]` characters only
dashes are emitted. -/
lemma slugifySub_all_dash (s : Str) (h : ∀ c ∈ s, isLowerAlnum c = false) :
    ∀ b, (slugifySub b s).all (fun c => c == '-') = true := by
  induction s with
  | nil => intro b; rfl
  | cons c cs ih =>
      intro b
      have hc : isLowerAlnum c = false := h c (by simp)
      have ih' := ih (fun x hx => h x (by simp [hx]))
      by_cases hb : b
      · simp [slugifySub, hc, hb, ih' true]
      · simp [slugifySub, hc, hb, ih' true]

/-- stripDashes_of_all_dash: a string of dashes strips to nothing. -/
lemma stripDashes_of_all_dash (s : Str) (h : s.all (fun c => c == '-') = true) :
    stripDashes s = [] := by
  have h1 : s.dropWhile (fun c => c == '-') = [] := by
    rw [List.dropWhile_eq_nil_iff]
    simpa [List.all_eq_true] using h
  unfold stripDashes
  rw [h1]
  rfl

/-- C9.  `build_report_path` always returns
`reports/<YYYY-MM-DD>-<slug>.md` where the slug is a non-empty match of
`[a-z0-9]+(-[a-z0-9]+)*`, and a title without ASCII alphanumeric
characters falls back to the slug "report". -/
theorem c9_build_report_path (title : Str) (d : Datetime) :
    ∃ slug, buildReportPath title d =
        "reports/".data ++ strftimeDay d ++ '-' :: slug ++ ".md".data ∧
      slug ≠ [] ∧ matchesSlug slug = true ∧
      ((lowerStr title).all (fun c => !(isLowerAlnum c)) = true →
        slug = "report".data) := by
  refine ⟨slugify title, rfl, ?_, ?_, ?_⟩
  · unfold slugify
    by_cases h : (stripDashes (slugifySub false (lowerStr title))).isEmpty
    · rw [if_pos h]
      decide
    · rw [if_neg h]
      simpa [List.isEmpty_iff] using h
  · unfold slugify
    by_cases h : (stripDashes (slugifySub false (lowerStr title))).isEmpty
    · rw [if_pos h]
      decide
    · rw [if_neg h]
      have hne : stripDashes (slugifySub false (lowerStr title)) ≠ [] := by
        simpa [List.isEmpty_iff] using h
      exact matchesSlug_of_parts _ hne
        (stripDashes_all _ _ (slugifySub_chars (lowerStr title) false))
        (stripDashes_head _) (stripDashes_last _)
        (stripDashes_noDD _ (slugifySub_noDD (lowerStr title) false))
  · intro hno
    have hall : ∀ c ∈ lowerStr title, isLowerAlnum c = false := by
      simpa [List.all_eq_true] using hno
    have hdash := slugifySub_all_dash (lowerStr title) hall false
    have hstrip := stripDashes_of_all_dash _ hdash
    unfold slugify
    rw [hstrip]
    rfl

/-- C9 (witness): a concrete date-and-title instantiation of the path
shape theorem. -/
theorem c9_build_report_path_witness :
    ∃ slug, buildReportPath "Weekly AI Report!".data ⟨2026, 1, 2⟩ =
        "reports/".data ++ strftimeDay ⟨2026, 1, 2⟩ ++ '-' :: slug ++ ".md".data ∧
      slug ≠ [] ∧ matchesSlug slug = true ∧
      ((lowerStr "Weekly AI Report!".data).all (fun c => !(isLowerAlnum c)) = true →
        slug = "report".data) :=
  c9_build_report_path "Weekly AI Report!".data ⟨2026, 1, 2⟩

/-- C10.  With `dry_run = True` no delivery function performs an
external request (empty request log) and each reports non-delivery:
publish returns `committed = false, sha = none`, email and Slack return
`delivered = false`; and the required-configuration validation still
runs first — missing email sender/recipients or a missing Slack webhook
raise even under `dry_run`. -/
theorem c10_dry_run_no_requests :
    (∀ (md title : Str) (d : Datetime) (owner repo branch : Str)
        (getResp : Except (Nat × Str) Json) (putResp : Json),
      publishReportMarkdown md title d owner repo branch true getResp putResp =
        .ok ({ path := buildReportPath title d,
               html_url := githubHtmlUrl owner repo branch (buildReportPath title d),
               committed := false, sha := none }, [])) ∧
    (∀ (title summary url md : Str) (env : Str → Option Str)
        (smtpR sendgridR : Except Str Unit),
      (getenvD env "DELIVERY_EMAIL_FROM".data []).isEmpty = false →
      (((splitOnChar ',' (getenvD env "DELIVERY_EMAIL_TO".data [])).map stripStr).filter
        (fun a => !a.isEmpty)).isEmpty = false →
      sendSummaryEmail title summary url md env true smtpR sendgridR =
        .ok ({ provider :=
                 lowerStr (stripStr (getenvD env "DELIVERY_EMAIL_PROVIDER".data "smtp".data)),
               delivered := false }, [])) ∧
    (∀ (title summary url md : Str) (env : Str → Option Str)
        (smtpR sendgridR : Except Str Unit) (dry : Bool),
      ((getenvD env "DELIVERY_EMAIL_FROM".data []).isEmpty = true ∨
        (((splitOnChar ',' (getenvD env "DELIVERY_EMAIL_TO".data [])).map stripStr).filter
          (fun a => !a.isEmpty)).isEmpty = true) →
      ∃ e, sendSummaryEmail title summary url md env dry smtpR sendgridR = .error e) ∧
    (∀ (summary url : Str) (env : Str → Option Str) (postR : Except Str Unit),
      (getenvD env "SLACK_WEBHOOK_URL".data []).isEmpty = false →
      postReportSummary summary url env true postR = .ok ({ delivered := false }, [])) ∧
    (∀ (summary url : Str) (env : Str → Option Str) (postR : Except Str Unit)
        (dry : Bool),
      (getenvD env "SLACK_WEBHOOK_URL".data []).isEmpty = true →
      ∃ e, postReportSummary summary url env dry postR = .error e) := by
  refine ⟨?_, ?_, ?_, ?_, ?_⟩
  · intro md title d owner repo branch getResp putResp
    rfl
  · intro title summary url md env smtpR sendgridR h1 h2
    simp only [sendSummaryEmail, h1, h2, Bool.or_self, if_true, if_false]
    rfl
  · intro title summary url md env smtpR sendgridR dry h
    refine ⟨"DELIVERY_EMAIL_FROM and DELIVERY_EMAIL_TO must be configured for email delivery".data, ?_⟩
    rcases h with h | h
    · simp only [sendSummaryEmail, h, Bool.true_or, if_true]
    · simp only [sendSummaryEmail, h, Bool.or_true, if_true]
  · intro summary url env postR h
    simp only [postReportSummary, h, if_false]
    rfl
  · intro summary url env postR dry h
    refine ⟨"SLACK_WEBHOOK_URL must be configured for Slack delivery".data, ?_⟩
    simp only [postReportSummary, h, if_true]

/-- C10 (witness): with a concrete environment providing sender,
recipient and webhook, the dry-run email and Slack paths return
non-delivery without any transmission. -/
theorem c10_dry_run_no_requests_witness :
    (getenvD sampleEnv "DELIVERY_EMAIL_FROM".data []).isEmpty = false ∧
    (((splitOnChar ',' (getenvD sampleEnv "DELIVERY_EMAIL_TO".data [])).map stripStr).filter
      (fun a => !a.isEmpty)).isEmpty = false ∧
    sendSummaryEmail "T".data "S".data "U".data "M".data sampleEnv true
        (.ok ()) (.ok ()) =
      .ok ({ provider :=
               lowerStr (stripStr (getenvD sampleEnv "DELIVERY_EMAIL_PROVIDER".data "smtp".data)),
             delivered := false }, []) ∧
    (getenvD sampleEnv "SLACK_WEBHOOK_URL".data []).isEmpty = false ∧
    postReportSummary "S".data "U".data sampleEnv true (.ok ()) =
      .ok ({ delivered := false }, []) ∧
    (getenvD emptyEnv "SLACK_WEBHOOK_URL".data []).isEmpty = true ∧
    (∃ e, postReportSummary "S".data "U".data emptyEnv true (.ok ()) = .error e) :=
  ⟨by decide, by decide,
    c10_dry_run_no_requests.2.1 "T".data "S".data "U".data "M".data sampleEnv
      (.ok ()) (.ok ()) (by decide) (by decide),
    by decide,
    c10_dry_run_no_requests.2.2.2.1 "S".data "U".data sampleEnv (.ok ()) (by decide),
    by decide,
    c10_dry_run_no_requests.2.2.2.2 "S".data "U".data emptyEnv (.ok ()) true (by decide)⟩

end Research
